import Mathlib

/-!
Verification of the `angles_to_config` data-model header of the
distortionizer repository (`src/angles_to_config/types.h`).

The C++ types are shallowly embedded: `double` values are modelled as
exact rationals `ℚ` (the angle returned by `rotationAboutY` lives in `ℝ`
since it involves `atan2`), `std::string` as `String`, `std::size_t` as
`Nat`.  A separate small IEEE-style value model (`FVal`) captures the
infinity/NaN propagation needed to reason about division by a zero
denominator in `projectOntoPlane`.
-/

namespace Distortionizer

/-- Embedding of `RectBounds<double>` (types.h, lines 45-52). -/
structure RectBounds where
  left : ℚ
  right : ℚ
  top : ℚ
  bottom : ℚ
deriving DecidableEq

/-- `RectBounds::reflectedHorizontally`: `RectBounds<T>{-right, -left, top, bottom}`. -/
def RectBounds.reflectedHorizontally (r : RectBounds) : RectBounds :=
  ⟨-r.right, -r.left, r.top, r.bottom⟩

/-- Embedding of `DataOrigin` (types.h, lines 104-110): input source string and
line number.  A default-constructed `DataOrigin` has an empty `inputSource`. -/
structure DataOrigin where
  inputSource : String
  lineNumber : Nat
deriving DecidableEq

/-- `DataOrigin::known`: `!inputSource.empty()`. -/
def DataOrigin.known (o : DataOrigin) : Bool :=
  !o.inputSource.isEmpty

/-- Embedding of class `XYZ` (types.h, lines 190-242): a 3D coordinate of
doubles, modelled with exact rational coordinates. -/
structure XYZ where
  x : ℚ
  y : ℚ
  z : ℚ
deriving DecidableEq

/-- `XYZ::projectOntoPlane(A, B, C, D)`:
`s = -D / (A * x + B * y + C * z)`, returning `(s * x, s * y, s * z)`. -/
def XYZ.projectOntoPlane (p : XYZ) (A B C D : ℚ) : XYZ :=
  let s : ℚ := -D / (A * p.x + B * p.y + C * p.z)
  ⟨s * p.x, s * p.y, s * p.z⟩

/-- Two-argument `atan2(y, x)` with the C library convention, built from
`Real.arctan`. -/
noncomputable def atan2 (y x : ℝ) : ℝ :=
  if 0 < x then Real.arctan (y / x)
  else if x < 0 then
    (if 0 ≤ y then Real.arctan (y / x) + Real.pi
     else Real.arctan (y / x) - Real.pi)
  else
    (if 0 < y then Real.pi / 2
     else if y < 0 then -(Real.pi / 2)
     else 0)

/-- `XYZ::rotationAboutY`: `std::atan2(-x, -z)`. -/
noncomputable def XYZ.rotationAboutY (p : XYZ) : ℝ :=
  atan2 (-(p.x : ℝ)) (-(p.z : ℝ))

/-- Embedding of `Eigen::Hyperplane<double, 3>` as used through
`Plane::coeffs()`: a 4-vector of coefficients `(A, B, C, D)`. -/
structure Plane where
  coeffs : Fin 4 → ℚ

/-- The tag types `PlaneA`, `PlaneB`, `PlaneC`, `PlaneD`
(types.h, lines 278-302). -/
inductive PlaneCoefficient
  | A
  | B
  | C
  | D
deriving DecidableEq

/-- `detail::PlaneCoefficientIndexTrait`: the positional index assigned to
each named coefficient (types.h, lines 283-290). -/
def PlaneCoefficientIndexTrait : PlaneCoefficient → Fin 4
  | .A => 0
  | .B => 1
  | .C => 2
  | .D => 3

/-- `detail::PlaneAccessProxy<Derived>::get`:
`p.coeffs()[PlaneCoefficientIndexTrait<Derived>()]` (types.h, line 295). -/
def PlaneAccessProxy.get (c : PlaneCoefficient) (p : Plane) : ℚ :=
  p.coeffs (PlaneCoefficientIndexTrait c)

/-- `PlaneA::get` (types.h, line 299). -/
def PlaneA.get (p : Plane) : ℚ := PlaneAccessProxy.get .A p

/-- `PlaneB::get` (types.h, line 300). -/
def PlaneB.get (p : Plane) : ℚ := PlaneAccessProxy.get .B p

/-- `PlaneC::get` (types.h, line 301). -/
def PlaneC.get (p : Plane) : ℚ := PlaneAccessProxy.get .C p

/-- `PlaneD::get` (types.h, line 302). -/
def PlaneD.get (p : Plane) : ℚ := PlaneAccessProxy.get .D p

/-- Embedding of `ProjectionDescription` (types.h, lines 308-314).
`hFOVDegrees` and `vFOVDegrees` carry no default in the source, so they are
required fields here; `overlapPercent` defaults to `100.` and the center of
projection `cop` to `{0.5, 0.5}` exactly as in the source. -/
structure ProjectionDescription where
  hFOVDegrees : ℚ
  vFOVDegrees : ℚ
  overlapPercent : ℚ := 100
  cop : ℚ × ℚ := (0.5, 0.5)
deriving DecidableEq

/-- Embedding of `InclusiveBounds<double>` (types.h, lines 331-352).
The default constructor leaves `minVal_`/`maxVal_` uninitialized and sets
`valid_ = false`; theorems about the default-constructed state therefore
quantify over arbitrary `minVal`/`maxVal` with `valid = false`. -/
structure InclusiveBounds where
  valid : Bool
  minVal : ℚ
  maxVal : ℚ
deriving DecidableEq

/-- The two-argument constructor `InclusiveBounds(minVal, maxVal)`:
sets `valid_ = true` and swaps the stored values when `maxVal_ < minVal_`. -/
def InclusiveBounds.ofMinMax (minVal maxVal : ℚ) : InclusiveBounds :=
  if maxVal < minVal then ⟨true, maxVal, minVal⟩ else ⟨true, minVal, maxVal⟩

/-- `InclusiveBounds::contains`: `(!valid_) || (val >= minVal_ && val <= maxVal_)`. -/
def InclusiveBounds.contains (b : InclusiveBounds) (val : ℚ) : Bool :=
  (!b.valid) || (decide (val ≥ b.minVal) && decide (val ≤ b.maxVal))

/-- `InclusiveBounds::outside`: `valid_ && (val < minVal_ || val > maxVal_)`. -/
def InclusiveBounds.outside (b : InclusiveBounds) (val : ℚ) : Bool :=
  b.valid && (decide (val < b.minVal) || decide (val > b.maxVal))

/-- `InclusiveBounds::getMin`. -/
def InclusiveBounds.getMin (b : InclusiveBounds) : ℚ := b.minVal

/-- `InclusiveBounds::getMax`. -/
def InclusiveBounds.getMax (b : InclusiveBounds) : ℚ := b.maxVal

/-- A small model of IEEE double values sufficient to track how
`projectOntoPlane` behaves when its denominator is exactly zero: a value is
either finite (an exact rational, with unsigned zero), a signed infinity
(`inf true` is `+∞`), or NaN. -/
inductive FVal
  | fin : ℚ → FVal
  | inf : Bool → FVal
  | nan : FVal
deriving DecidableEq

/-- IEEE negation on the value model. -/
def FVal.neg : FVal → FVal
  | .fin q => .fin (-q)
  | .inf s => .inf (!s)
  | .nan => .nan

/-- IEEE addition on the value model: finite sums are exact, a finite value
plus an infinity is that infinity, opposite infinities give NaN, NaN
propagates. -/
def FVal.add : FVal → FVal → FVal
  | .fin a, .fin b => .fin (a + b)
  | .fin _, .inf s => .inf s
  | .inf s, .fin _ => .inf s
  | .inf s, .inf t => if s = t then .inf s else .nan
  | _, _ => .nan

/-- IEEE multiplication on the value model: finite products are exact, zero
times infinity is NaN, a nonzero finite value times an infinity is an
infinity with the product sign, NaN propagates. -/
def FVal.mul : FVal → FVal → FVal
  | .fin a, .fin b => .fin (a * b)
  | .fin a, .inf s => if a = 0 then .nan else .inf (decide (0 < a) = s)
  | .inf s, .fin b => if b = 0 then .nan else .inf (s = decide (0 < b))
  | .inf s, .inf t => .inf (s = t)
  | _, _ => .nan

/-- IEEE division on the value model: a nonzero finite value divided by
(unsigned, i.e. positive) zero is a signed infinity, `0 / 0` is NaN, finite
quotients are exact, a finite value over an infinity is zero, `∞ / ∞` is
NaN, NaN propagates. -/
def FVal.div : FVal → FVal → FVal
  | .fin a, .fin b =>
    if b = 0 then (if a = 0 then .nan else .inf (decide (0 < a)))
    else .fin (a / b)
  | .fin _, .inf _ => .fin 0
  | .inf s, .fin b => .inf (s = decide (0 ≤ b))
  | .inf _, .inf _ => .nan
  | _, _ => .nan

/-- Is the modelled value finite (neither an infinity nor NaN)? -/
def FVal.isFinite : FVal → Bool
  | .fin _ => true
  | _ => false

/-- A 3D coordinate of modelled IEEE values. -/
structure FXYZ where
  x : FVal
  y : FVal
  z : FVal
deriving DecidableEq

/-- `XYZ::projectOntoPlane` re-expressed over the IEEE value model, with the
same expression structure as the source:
`s = -D / (A * x + B * y + C * z)`, result `(s * x, s * y, s * z)`. -/
def FXYZ.projectOntoPlane (p : FXYZ) (A B C D : FVal) : FXYZ :=
  let s : FVal := D.neg.div (((A.mul p.x).add (B.mul p.y)).add (C.mul p.z))
  ⟨s.mul p.x, s.mul p.y, s.mul p.z⟩

/-! ## Theorems -/

/-- C1: for every 3D point `(x, y, z)` and plane coefficients `A, B, C, D`
with `A*x + B*y + C*z` nonzero, `projectOntoPlane` returns
`(s*x, s*y, s*z)` with `s = -D/(A*x + B*y + C*z)`, and that result lies on
the plane `A*X + B*Y + C*Z + D = 0` (the intersection of the ray from the
origin through the point with the plane). -/
theorem projectOntoPlane_ray_plane_intersection (x y z A B C D : ℚ)
    (h : A * x + B * y + C * z ≠ 0) :
    XYZ.projectOntoPlane ⟨x, y, z⟩ A B C D =
      ⟨-D / (A * x + B * y + C * z) * x,
       -D / (A * x + B * y + C * z) * y,
       -D / (A * x + B * y + C * z) * z⟩ ∧
    A * (XYZ.projectOntoPlane ⟨x, y, z⟩ A B C D).x +
      B * (XYZ.projectOntoPlane ⟨x, y, z⟩ A B C D).y +
      C * (XYZ.projectOntoPlane ⟨x, y, z⟩ A B C D).z + D = 0 := by
  refine ⟨rfl, ?_⟩
  simp only [XYZ.projectOntoPlane]
  field_simp
  ring

/-- Witness for C1 at the concrete point `(1, 0, 0)` and plane `x - 2 = 0`. -/
theorem projectOntoPlane_ray_plane_intersection_witness :
    XYZ.projectOntoPlane ⟨1, 0, 0⟩ 1 0 0 (-2) =
      ⟨-(-2) / (1 * 1 + 0 * 0 + 0 * 0) * 1,
       -(-2) / (1 * 1 + 0 * 0 + 0 * 0) * 0,
       -(-2) / (1 * 1 + 0 * 0 + 0 * 0) * 0⟩ ∧
    1 * (XYZ.projectOntoPlane ⟨1, 0, 0⟩ 1 0 0 (-2)).x +
      0 * (XYZ.projectOntoPlane ⟨1, 0, 0⟩ 1 0 0 (-2)).y +
      0 * (XYZ.projectOntoPlane ⟨1, 0, 0⟩ 1 0 0 (-2)).z + (-2) = 0 :=
  projectOntoPlane_ray_plane_intersection 1 0 0 1 0 0 (-2) (by norm_num)

/-- C2 counterexample: for the point `(0, 0, 1)` and the plane `z = 0`
(`D = 0`, a plane through the origin), the claim's hypothesis holds (the
denominator is `1 ≠ 0`) and the first projection lands on the origin, but
re-projecting that result in the IEEE value model divides `-0` by `0` and
returns NaN in every component — not the same point within any tolerance. -/
theorem projectOntoPlane_reprojection_nan :
    (0 : ℚ) * 0 + 0 * 0 + 1 * 1 ≠ 0 ∧
    (FXYZ.mk (.fin 0) (.fin 0) (.fin 1)).projectOntoPlane
        (.fin 0) (.fin 0) (.fin 1) (.fin 0) =
      FXYZ.mk (.fin 0) (.fin 0) (.fin 0) ∧
    ((FXYZ.mk (.fin 0) (.fin 0) (.fin 1)).projectOntoPlane
        (.fin 0) (.fin 0) (.fin 1) (.fin 0)).projectOntoPlane
        (.fin 0) (.fin 0) (.fin 1) (.fin 0) =
      FXYZ.mk .nan .nan .nan := by
  refine ⟨by norm_num, ?_, ?_⟩ <;>
    norm_num [FXYZ.projectOntoPlane, FVal.mul, FVal.add, FVal.neg, FVal.div]

/-- C2 (amended): a point already on the plane (with nonzero denominator)
projects to itself, and for every point with nonzero denominator,
re-projecting the result leaves it unchanged provided the plane does not
pass through the origin (`D ≠ 0`). -/
theorem projectOntoPlane_idempotent (p : XYZ) (A B C D : ℚ)
    (h : A * p.x + B * p.y + C * p.z ≠ 0) :
    (A * p.x + B * p.y + C * p.z + D = 0 → p.projectOntoPlane A B C D = p) ∧
    (D ≠ 0 → (p.projectOntoPlane A B C D).projectOntoPlane A B C D =
      p.projectOntoPlane A B C D) := by
  obtain ⟨x, y, z⟩ := p
  simp only at h
  constructor
  · intro hOn
    have hs : -D / (A * x + B * y + C * z) = 1 := by
      have hD : -D = A * x + B * y + C * z := by linarith
      rw [hD, div_self h]
    simp only [XYZ.projectOntoPlane, hs, one_mul]
  · intro hD
    simp only [XYZ.projectOntoPlane]
    have hden2 : A * (-D / (A * x + B * y + C * z) * x) +
        B * (-D / (A * x + B * y + C * z) * y) +
        C * (-D / (A * x + B * y + C * z) * z) = -D := by
      field_simp
      ring
    rw [hden2, div_self (neg_ne_zero.mpr hD)]
    simp

/-- Witness for C2 at the point `(1, 1, 1)` on the plane `x + y + z - 3 = 0`. -/
theorem projectOntoPlane_idempotent_witness :
    XYZ.projectOntoPlane ⟨1, 1, 1⟩ 1 1 1 (-3) = ⟨1, 1, 1⟩ ∧
    (XYZ.projectOntoPlane ⟨1, 1, 1⟩ 1 1 1 (-3)).projectOntoPlane 1 1 1 (-3) =
      XYZ.projectOntoPlane ⟨1, 1, 1⟩ 1 1 1 (-3) :=
  ⟨(projectOntoPlane_idempotent ⟨1, 1, 1⟩ 1 1 1 (-3) (by norm_num)).1 (by norm_num),
   (projectOntoPlane_idempotent ⟨1, 1, 1⟩ 1 1 1 (-3) (by norm_num)).2 (by norm_num)⟩

/-- C3: in the IEEE value model, when the ray through the point is parallel
to the plane (`A*x + B*y + C*z = 0` exactly, `D ≠ 0`), every component of
the result of `projectOntoPlane` is non-finite (an infinity or NaN). -/
theorem projectOntoPlaneF_parallel_nonfinite (x y z A B C D : ℚ)
    (hden : A * x + B * y + C * z = 0) (hD : D ≠ 0) :
    ((FXYZ.mk (.fin x) (.fin y) (.fin z)).projectOntoPlane
        (.fin A) (.fin B) (.fin C) (.fin D)).x.isFinite = false ∧
    ((FXYZ.mk (.fin x) (.fin y) (.fin z)).projectOntoPlane
        (.fin A) (.fin B) (.fin C) (.fin D)).y.isFinite = false ∧
    ((FXYZ.mk (.fin x) (.fin y) (.fin z)).projectOntoPlane
        (.fin A) (.fin B) (.fin C) (.fin D)).z.isFinite = false := by
  have e1 : (((FVal.fin A).mul (.fin x)).add ((FVal.fin B).mul (.fin y))).add
      ((FVal.fin C).mul (.fin z)) = .fin 0 := by
    simp [FVal.mul, FVal.add, hden]
  have e2 : (FVal.fin D).neg.div (.fin 0) = .inf (decide (0 < -D)) := by
    simp [FVal.neg, FVal.div, neg_eq_zero, hD]
  simp only [FXYZ.projectOntoPlane, e1, e2]
  refine ⟨?_, ?_, ?_⟩
  · rcases eq_or_ne x 0 with hx | hx <;> simp [FVal.mul, hx, FVal.isFinite]
  · rcases eq_or_ne y 0 with hy | hy <;> simp [FVal.mul, hy, FVal.isFinite]
  · rcases eq_or_ne z 0 with hz | hz <;> simp [FVal.mul, hz, FVal.isFinite]

/-- Witness for C3 at the point `(1, 0, 0)` and plane `y + 1 = 0` (ray
parallel to the plane). -/
theorem projectOntoPlaneF_parallel_nonfinite_witness :
    ((FXYZ.mk (.fin 1) (.fin 0) (.fin 0)).projectOntoPlane
        (.fin 0) (.fin 1) (.fin 0) (.fin 1)).x.isFinite = false ∧
    ((FXYZ.mk (.fin 1) (.fin 0) (.fin 0)).projectOntoPlane
        (.fin 0) (.fin 1) (.fin 0) (.fin 1)).y.isFinite = false ∧
    ((FXYZ.mk (.fin 1) (.fin 0) (.fin 0)).projectOntoPlane
        (.fin 0) (.fin 1) (.fin 0) (.fin 1)).z.isFinite = false :=
  projectOntoPlaneF_parallel_nonfinite 1 0 0 0 1 0 1 (by norm_num) (by norm_num)

/-- C4: `rotationAboutY` returns `atan2(-x, -z)`; it is zero for points
along the `-Z` axis and positive for points rotated toward the `-X` axis
(here: `x < 0` and `z < 0`). -/
theorem rotationAboutY_spec :
    (∀ p : XYZ, p.rotationAboutY = atan2 (-(p.x : ℝ)) (-(p.z : ℝ))) ∧
    (∀ y c : ℚ, 0 < c → (XYZ.mk 0 y (-c)).rotationAboutY = 0) ∧
    (∀ p : XYZ, p.x < 0 → p.z < 0 → 0 < p.rotationAboutY) := by
  refine ⟨fun p => rfl, ?_, ?_⟩
  · intro y c hc
    have hc' : (0 : ℝ) < (c : ℝ) := by exact_mod_cast hc
    show atan2 (-((0 : ℚ) : ℝ)) (-(((-c : ℚ)) : ℝ)) = 0
    rw [show (-((0 : ℚ) : ℝ)) = 0 by norm_num,
        show (-(((-c : ℚ)) : ℝ)) = (c : ℝ) by push_cast; ring]
    unfold atan2
    rw [if_pos hc', zero_div, Real.arctan_zero]
  · intro p hx hz
    have hx' : (0 : ℝ) < -(p.x : ℝ) := by
      have : (p.x : ℝ) < 0 := by exact_mod_cast hx
      linarith
    have hz' : (0 : ℝ) < -(p.z : ℝ) := by
      have : (p.z : ℝ) < 0 := by exact_mod_cast hz
      linarith
    show 0 < atan2 (-(p.x : ℝ)) (-(p.z : ℝ))
    unfold atan2
    rw [if_pos hz']
    have harg : (0 : ℝ) < -(p.x : ℝ) / -(p.z : ℝ) := div_pos hx' hz'
    have := Real.arctan_strictMono harg
    rwa [Real.arctan_zero] at this

/-- Witness for C4: the point `(0, 3, -2)` on the `-Z` axis has rotation
zero, and the point `(-1, 5, -1)` has positive rotation. -/
theorem rotationAboutY_spec_witness :
    (XYZ.mk 0 3 (-2)).rotationAboutY = 0 ∧
    0 < (XYZ.mk (-1) 5 (-1)).rotationAboutY :=
  ⟨rotationAboutY_spec.2.1 3 2 (by norm_num),
   rotationAboutY_spec.2.2 ⟨-1, 5, -1⟩ (by norm_num) (by norm_num)⟩

/-- C5: a `DataOrigin` is `known` iff its `inputSource` is non-empty; with
an empty `inputSource` (as after default construction) it is unknown for
every line number. -/
theorem dataOrigin_known_iff_nonempty_source :
    (∀ o : DataOrigin, o.known = true ↔ o.inputSource ≠ "") ∧
    (∀ n : Nat, (DataOrigin.mk "" n).known = false) := by
  constructor
  · intro o
    simp [DataOrigin.known, ← String.isEmpty_iff]
  · intro n
    rfl

/-- C6: a `ProjectionDescription` built with only its FOV fields specified
keeps the defaulted `overlapPercent = 100` and center of projection
`(0.5, 0.5)`. -/
theorem projectionDescription_defaults (hFOV vFOV : ℚ) :
    ({ hFOVDegrees := hFOV, vFOVDegrees := vFOV } :
      ProjectionDescription).overlapPercent = 100 ∧
    ({ hFOVDegrees := hFOV, vFOVDegrees := vFOV } :
      ProjectionDescription).cop = (0.5, 0.5) :=
  ⟨rfl, rfl⟩

/-- C7: the named plane-coefficient accessors agree with positional access
into the coefficient vector: `PlaneA::get` is index 0, `PlaneB::get` index
1, `PlaneC::get` index 2, `PlaneD::get` index 3. -/
theorem plane_named_accessors_positional (p : Plane) :
    PlaneA.get p = p.coeffs 0 ∧ PlaneB.get p = p.coeffs 1 ∧
    PlaneC.get p = p.coeffs 2 ∧ PlaneD.get p = p.coeffs 3 :=
  ⟨rfl, rfl, rfl, rfl⟩

/-- C8: `outside` is the boolean negation of `contains` for every bounds
value, and an invalid (default-constructed) bounds contains every value and
excludes none, whatever its stored min/max. -/
theorem inclusiveBounds_outside_eq_not_contains :
    (∀ (b : InclusiveBounds) (v : ℚ), b.outside v = !(b.contains v)) ∧
    (∀ (m M v : ℚ), (InclusiveBounds.mk false m M).contains v = true ∧
      (InclusiveBounds.mk false m M).outside v = false) := by
  constructor
  · intro b v
    rcases b with ⟨valid, m, M⟩
    cases valid <;>
      by_cases h1 : m ≤ v <;> by_cases h2 : v ≤ M <;>
        simp_all [InclusiveBounds.outside, InclusiveBounds.contains, not_le]
  · intro m M v
    exact ⟨rfl, rfl⟩

/-- C9: the two-argument `InclusiveBounds` constructor always yields a valid
bounds with `getMin ≤ getMax`, and is insensitive to argument order. -/
theorem inclusiveBounds_ofMinMax_valid_ordered (a b : ℚ) :
    (InclusiveBounds.ofMinMax a b).valid = true ∧
    (InclusiveBounds.ofMinMax a b).getMin ≤ (InclusiveBounds.ofMinMax a b).getMax ∧
    InclusiveBounds.ofMinMax a b = InclusiveBounds.ofMinMax b a := by
  unfold InclusiveBounds.ofMinMax InclusiveBounds.getMin InclusiveBounds.getMax
  rcases lt_trichotomy a b with h | h | h
  · rw [if_neg (not_lt.mpr h.le), if_pos h]
    exact ⟨rfl, h.le, rfl⟩
  · subst h
    simp
  · rw [if_pos h, if_neg (not_lt.mpr h.le)]
    exact ⟨rfl, h.le, rfl⟩

/-- C10: `reflectedHorizontally` is an involution on `RectBounds`. -/
theorem rectBounds_reflectedHorizontally_involutive (r : RectBounds) :
    r.reflectedHorizontally.reflectedHorizontally = r := by
  rcases r with ⟨l, rt, t, bt⟩
  simp [RectBounds.reflectedHorizontally]

end Distortionizer
